import Mathlib

/-!
Shallow embedding of the go-unixcycle lifecycle orchestrator and probe
combinators, translated from `src/manager.go` (the variant with the
`exitSignal` channel, named components and panic recovery, which the
claims' line references point at), `src/unixcycle/component.go` and
`src/testing.go`.

Conventions of the embedding:
* Durations and instants are natural numbers (abstract time units).
* `syscall.Signal` is an integer type in Go; signals are modelled as `Nat`
  with the Linux numeric values of the constants the code uses.
* A fallible Go function that either returns `nil` or an error is modelled
  by `Option Nat` (`none` = nil, `some n` = some error value); components
  outside the package cannot produce the package-private `errTimeout`
  value, so their errors are plain numbers.
* Concurrency is resolved by making the scheduling-dependent inputs
  (completion times of operations, the value the wait phase observed)
  explicit parameters of the definitions.
-/

namespace Unixcycle

/-- Linux value of `syscall.SIGALRM`, returned by `Run` on a phase timeout. -/
def SIGALRM : Nat := 14

/-- Linux value of `syscall.SIGABRT`, returned by `Run` on a phase error. -/
def SIGABRT : Nat := 6

/-! ## Timeout-racing primitive, from `funcOrTimeout` in src/manager.go

`funcOrTimeout(f, timeout)` launches `f` on a goroutine which sends `f()`'s
result into a buffered channel of capacity one, then selects between that
channel and `time.After(timeout)`.  An invocation of `f` is modelled by an
`Op`: the time the call takes, and the result it produces. -/

/-- One invocation of a fallible operation: how long it runs and what it
returns (`none` = nil error, `some n` = the error `n`). -/
structure Op where
  dur : Nat
  result : Option Nat
deriving DecidableEq

/-- Value of the `error` that `funcOrTimeout` hands back to its caller, as
the caller discriminates it: nil, the operation's own error, or the
package-private `errTimeout` sentinel (`errors.Is(err, errTimeout)`). -/
inductive FuncResult
  | ok
  | failed (n : Nat)
  | timedOut
deriving DecidableEq

/-- Conversion of an operation's own result into the value `funcOrTimeout`
returns when the operation wins the race: the result is passed on verbatim. -/
def toFuncResult : Option Nat → FuncResult
  | none => FuncResult.ok
  | some n => FuncResult.failed n

/-- funcOrTimeout from src/manager.go: the select returns the operation's
own result if the operation completes strictly before the timer, and the
timeout sentinel if the timer fires strictly first (if both are ready at
the same instant Go picks randomly; the model resolves the tie in favour
of the timer, no claim depends on the tie). -/
def funcOrTimeout (f : Op) (timeout : Nat) : FuncResult :=
  if f.dur < timeout then toFuncResult f.result else FuncResult.timedOut

/-! ## Buffered channel of capacity one

Both `funcOrTimeout`'s `errs` channel and the Manager's `exitSignal`
channel are `make(chan _, 1)`.  The state of such a channel is its single
buffer slot. -/

/-- State of a Go channel with buffer capacity one: the slot is either
free or holds one value. -/
structure Chan1 (α : Type) where
  buf : Option α
deriving DecidableEq

/-- What happens to a goroutine executing a plain send `ch <- v`: either
the send completes (yielding the new channel state) or the goroutine
blocks because the slot is full and no receiver is waiting. -/
inductive SendOutcome (α : Type)
  | completed (after : Chan1 α)
  | blocked
deriving DecidableEq

/-- Plain Go send `ch <- v` on a capacity-one channel with no waiting
receiver: fills a free slot, blocks on a full one. -/
def chanSend {α : Type} (c : Chan1 α) (v : α) : SendOutcome α :=
  match c.buf with
  | none => SendOutcome.completed ⟨some v⟩
  | some _ => SendOutcome.blocked

/-- Non-blocking offer (a `select` with a `default` branch): fills a free
slot, silently drops the value when the slot is full.  The second
component records whether the value was accepted.  This operation does not
occur in src/manager.go; it is what the spec describes. -/
def chanOffer {α : Type} (c : Chan1 α) (v : α) : Chan1 α × Bool :=
  match c.buf with
  | none => (⟨some v⟩, true)
  | some w => (⟨some w⟩, false)

/-- Initial state of the `errs := make(chan error, 1)` channel inside
`funcOrTimeout`: the slot is free. -/
def errsChanInit : Chan1 (Option Nat) := ⟨none⟩

/-- The single send performed by the background goroutine of
`funcOrTimeout` (`errs <- f()`): it runs `f` to completion — nothing
cancels it — and sends the result into the freshly made channel. -/
def bgSend (f : Op) : SendOutcome (Option Nat) :=
  chanSend errsChanInit f.result

/-! ## Components and the Manager's phases, from src/manager.go and
src/unixcycle/component.go

The `Component` interface is `interface { Start() error }`; the optional
capabilities `setupable`/`closable` are discovered by interface
assertion.  A component is therefore modelled with a mandatory start
behaviour and optional setup/close operations (`none` = the value does
not implement the capability). -/

/-- Behaviour of one invocation of a component's `Start` method: it
returns nil, returns an error, or panics. -/
inductive StartBehavior
  | ok
  | err (n : Nat)
  | panics
deriving DecidableEq

/-- A registrable component: the `Component` interface requires `Start`,
while `Setup` and `Close` are optional capabilities discovered by
interface assertion (`some op` = the value implements the capability and
its invocation behaves like `op`). -/
structure Component where
  setup : Option Op
  start : StartBehavior
  close : Option Op
deriving DecidableEq

/-- namedComponent from src/manager.go: caller-supplied diagnostic name
plus the component, as appended by `Add`. -/
structure NamedComponent where
  name : String
  component : Component
deriving DecidableEq

/-- Observable calls the Manager makes into components, in order. -/
inductive Event
  | setup (name : String)
  | start (name : String)
  | close (name : String)
deriving DecidableEq

/-- setupComponents from src/manager.go: walk the registration list in
forward order; for each component implementing `setupable`, call its
Setup raced against the setup timeout; on the first timeout or error stop
and return it.  Produces the trace of Setup calls and the loop's result. -/
def setupComponents (setupTimeout : Nat) : List NamedComponent → List Event × FuncResult
  | [] => ([], FuncResult.ok)
  | nc :: rest =>
    match nc.component.setup with
    | none => setupComponents setupTimeout rest
    | some op =>
      match funcOrTimeout op setupTimeout with
      | FuncResult.ok =>
        let p := setupComponents setupTimeout rest
        (Event.setup nc.name :: p.1, p.2)
      | FuncResult.failed n => ([Event.setup nc.name], FuncResult.failed n)
      | FuncResult.timedOut => ([Event.setup nc.name], FuncResult.timedOut)

/-- startComponents from src/manager.go: walk the registration list in
forward order and launch a goroutine for every component implementing
`startable`.  Since the `Component` interface itself contains `Start`,
the `s.Component.(startable)` assertion succeeds for every registered
component, so one start is issued per component. -/
def startComponents (cs : List NamedComponent) : List Event :=
  cs.map (fun nc => Event.start nc.name)

/-- Inner loop of closeComponents over an already-reversed list: for each
component implementing `closable`, call its Close raced against the close
timeout; stop on the first timeout or error. -/
def closeLoop (closeTimeout : Nat) : List NamedComponent → List Event × FuncResult
  | [] => ([], FuncResult.ok)
  | nc :: rest =>
    match nc.component.close with
    | none => closeLoop closeTimeout rest
    | some op =>
      match funcOrTimeout op closeTimeout with
      | FuncResult.ok =>
        let p := closeLoop closeTimeout rest
        (Event.close nc.name :: p.1, p.2)
      | FuncResult.failed n => ([Event.close nc.name], FuncResult.failed n)
      | FuncResult.timedOut => ([Event.close nc.name], FuncResult.timedOut)

/-- closeComponents from src/manager.go: `slices.Backward` iterates the
registration list from the last-added component to the first. -/
def closeComponents (closeTimeout : Nat) (cs : List NamedComponent) : List Event × FuncResult :=
  closeLoop closeTimeout cs.reverse

/-- Run from src/manager.go.  `waitCause` is the signal value that
`waitForSignal` delivered (the arbitrated first cause; its value depends
on scheduling, so it is a parameter here).  Returns the full trace of
component calls and the signal `Run` returns. -/
def run (setupTimeout closeTimeout waitCause : Nat) (cs : List NamedComponent) :
    List Event × Nat :=
  let s := setupComponents setupTimeout cs
  match s.2 with
  | FuncResult.timedOut => (s.1, SIGALRM)
  | FuncResult.failed _ => (s.1, SIGABRT)
  | FuncResult.ok =>
    let st := startComponents cs
    let c := closeComponents closeTimeout cs
    match c.2 with
    | FuncResult.timedOut => (s.1 ++ st ++ c.1, SIGALRM)
    | FuncResult.failed _ => (s.1 ++ st ++ c.1, SIGABRT)
    | FuncResult.ok => (s.1 ++ st ++ c.1, waitCause)

/-- Forward-order list of the Setup calls a full pass over the
registration list would make: one per component exposing the capability,
in registration order. -/
def forwardSetups (cs : List NamedComponent) : List Event :=
  cs.filterMap (fun nc => nc.component.setup.map (fun _ => Event.setup nc.name))

/-- Reverse-order list of the Close calls a full pass would make: one per
component exposing the capability, in exactly reverse registration order. -/
def reverseCloses (cs : List NamedComponent) : List Event :=
  cs.reverse.filterMap (fun nc => nc.component.close.map (fun _ => Event.close nc.name))

/-! ## The start-phase goroutine wrapper, from startComponents in
src/manager.go

Each launched goroutine runs `startable.Start()` under a deferred
`recover()`.  The outcome of one such task is either a normal return
(optionally having written a signal to `m.exitSignal`) or a crash of the
whole process by an uncaught panic. -/

/-- Outcome of one start-phase task: a normal return carrying the value it
wrote to the exit channel (if any), or an uncaught panic escaping the
goroutine, which in Go crashes the process. -/
inductive TaskOutcome
  | returned (wrote : Option Nat)
  | crashed
deriving DecidableEq

/-- The goroutine body without the deferred recover: an error leads to a
SIGABRT write, a nil return writes nothing, and a panic escapes and
crashes the process. -/
def rawStartTask : StartBehavior → TaskOutcome
  | StartBehavior.ok => TaskOutcome.returned none
  | StartBehavior.err _ => TaskOutcome.returned (some SIGABRT)
  | StartBehavior.panics => TaskOutcome.crashed

/-- The goroutine body as written in startComponents, with the deferred
`recover()`: a panic is caught inside the task, logged, and converted into
a SIGABRT write to the exit channel; the task then returns normally. -/
def startTask : StartBehavior → TaskOutcome
  | StartBehavior.ok => TaskOutcome.returned none
  | StartBehavior.err _ => TaskOutcome.returned (some SIGABRT)
  | StartBehavior.panics => TaskOutcome.returned (some SIGABRT)

/-! ## The termination-arbitration channel, from src/manager.go

`exitSignal := make(chan syscall.Signal, 1)`.  Writers (a failing or
panicking start task, and the goroutine running the termination source in
`waitForSignal`) each execute a plain send `m.exitSignal <- sig`.
`waitForSignal` performs exactly one receive per `Run`. -/

/-- Initial state of the Manager's `exitSignal` channel: capacity one,
slot free. -/
def exitChanInit : Chan1 Nat := ⟨none⟩

/-- The write each producer performs on the exit channel: the plain Go
send statement `m.exitSignal <- sig` — not a select with a default
branch. -/
def exitSignalWrite (c : Chan1 Nat) (sig : Nat) : SendOutcome Nat :=
  chanSend c sig

/-- Apply a sequence of writer arrivals (in arrival order) to the exit
channel, counting the writers left blocked: the channel state after the
completed sends, and how many writers are still blocked on their send. -/
def applyWrites : Chan1 Nat → List Nat → Chan1 Nat × Nat
  | c, [] => (c, 0)
  | c, w :: ws =>
    match chanSend c w with
    | SendOutcome.completed c2 => applyWrites c2 ws
    | SendOutcome.blocked =>
      let p := applyWrites c ws
      (p.1, p.2 + 1)

/-- The value observed by the single receive in `waitForSignal`, given the
writers that arrived (in order) before the receive: the content of the
slot after the sends. -/
def firstConsumed (ws : List Nat) : Option Nat :=
  (applyWrites exitChanInit ws).1.buf

/-! ## Go method sets and interface satisfaction, from
src/unixcycle/component.go

Interface satisfaction in Go is method-set containment.  The three
capability interfaces each demand one method, and the registrable
`Component` interface is `interface { Start() error }`. -/

/-- The methods (among the three lifecycle ones) present in a Go value's
method set. -/
structure MethodSet where
  hasSetup : Bool
  hasStart : Bool
  hasClose : Bool
deriving DecidableEq

/-- Satisfaction of `setupable` (`interface { Setup() error }`). -/
def implementsSetupable (ms : MethodSet) : Bool := ms.hasSetup

/-- Satisfaction of `startable` (`interface { Start() error }`). -/
def implementsStartable (ms : MethodSet) : Bool := ms.hasStart

/-- Satisfaction of `closable` (`interface { Close() error }`). -/
def implementsClosable (ms : MethodSet) : Bool := ms.hasClose

/-- Satisfaction of the `Component` interface from
src/unixcycle/component.go, `interface { Start() error }`: the value must
provide `Start`.  Only such values can be passed to `Manager.Add`. -/
def implementsComponent (ms : MethodSet) : Bool := ms.hasStart

/-! ## RetryingProber, from src/testing.go

`RetryingProber(retryDelay, timeout, prober)` derives a context with the
overall deadline, starts a ticker with period `retryDelay`, and loops a
select between the context's done channel and the ticker.  Model: the
invocation happens at instant 0; the derived context fires at
`min cancelAt timeout` where `cancelAt` is the instant the caller's outer
context is cancelled (`none` = never); ticks happen at `retryDelay`,
`2*retryDelay`, ...; a probe attempt is instantaneous and its success
depends only on the attempt index.  When the done channel and a tick are
ready at the same instant the model lets the done channel win (Go picks
randomly; no claim depends on a tie). -/

/-- Classification of a probe invocation's outcome, mirroring the distinct
error messages of src/testing.go: success, the deadline-exceeded failure
("prober timed out"), the plain cancellation failure ("retrying prober
failed"), or exhaustion of the model's step budget (unreachable for a
positive retry delay, present only to keep the recursion structural). -/
inductive ProbeResult
  | success
  | deadlineExceeded
  | cancelled
  | outOfFuel
deriving DecidableEq

/-- The retry loop.  `attempt` counts probe invocations so far, `nt` is
the instant of the next pending tick, and `fuel` bounds the number of
iterations (each iteration moves `nt` forward by the retry delay, so
`timeout + 1` fuel suffices whenever the delay is positive).  Returns the
outcome and the total number of probe invocations. -/
def retryLoop (probe : Nat → Bool) (retryDelay timeout : Nat) (cancelAt : Option Nat) :
    Nat → Nat → Nat → ProbeResult × Nat
  | 0, attempt, _ => (ProbeResult.outOfFuel, attempt)
  | fuel + 1, attempt, nt =>
    let doneAt := match cancelAt with
      | some c => min c timeout
      | none => timeout
    if doneAt ≤ nt then
      if timeout ≤ doneAt then (ProbeResult.deadlineExceeded, attempt)
      else (ProbeResult.cancelled, attempt)
    else if probe attempt then (ProbeResult.success, attempt + 1)
    else retryLoop probe retryDelay timeout cancelAt fuel (attempt + 1) (nt + retryDelay)

/-- RetryingProber from src/testing.go, invoked at instant 0 on a caller
context that is cancelled at `cancelAt` (`none` = never): first tick at
`retryDelay`, derived-context deadline at `timeout`. -/
def retryingProber (retryDelay timeout : Nat) (cancelAt : Option Nat)
    (probe : Nat → Bool) : ProbeResult × Nat :=
  retryLoop probe retryDelay timeout cancelAt (timeout + 1) 0 retryDelay

/-! ## ParallelProber, from src/testing.go

`ParallelProber(probers...)` launches every member once in an errgroup
whose derived context is cancelled at the first member error (or when the
caller's context fires); a helper goroutine sends `errGroup.Wait()` — which
blocks until every member task has returned, then yields the first
non-nil error — into `errChan`; the final select races `errChan` against
the caller's context.

Model of one member: how long it runs when nothing cancels it, whether it
then succeeds, and whether it returns promptly (with a context error)
when the shared context is cancelled before it finishes on its own.  The
outer context is modelled by an optional deadline `od`; the model lets
the outer done channel win a tie in the final select. -/

/-- One member probe of a ParallelProber invocation. -/
structure Member where
  dur : Nat
  ok : Bool
  cancelResponsive : Bool
deriving DecidableEq

/-- Instants at which members fail on their own (running to completion
with a non-nil result). -/
def failTimes (ms : List Member) : List Nat :=
  ms.filterMap (fun m => if m.ok then none else some m.dur)

/-- Smallest element of a list of instants, `none` for the empty list. -/
def earliest : List Nat → Option Nat
  | [] => none
  | t :: ts =>
    match earliest ts with
    | none => some t
    | some u => some (min t u)

/-- Instant of the first member failure, if any member fails. -/
def firstFailAt (ms : List Member) : Option Nat :=
  earliest (failTimes ms)

/-- Instant at which the errgroup's derived context is cancelled: the
first member failure or the outer deadline, whichever is earlier
(`none` = never). -/
def sharedCancelAt (od : Option Nat) (ms : List Member) : Option Nat :=
  match od, firstFailAt ms with
  | none, none => none
  | some d, none => some d
  | none, some t => some t
  | some d, some t => some (min d t)

/-- Instant a member's task returns: at its own duration, unless the
shared context is cancelled earlier and the member responds to
cancellation by returning at the cancellation instant. -/
def memberFinish (tc : Option Nat) (m : Member) : Nat :=
  match tc with
  | some t => if m.cancelResponsive && t < m.dur then t else m.dur
  | none => m.dur

/-- Whether a member's task returns a non-nil error: its own failure when
it runs to completion, or the context error when cancellation cuts a
responsive member short. -/
def memberErr (tc : Option Nat) (m : Member) : Bool :=
  match tc with
  | some t => if m.cancelResponsive && t < m.dur then true else !m.ok
  | none => !m.ok

/-- Instant at which `errGroup.Wait()` returns: only after every member
task has returned. -/
def waitReturnsAt (od : Option Nat) (ms : List Member) : Nat :=
  (ms.map (memberFinish (sharedCancelAt od ms))).foldr max 0

/-- Whether `errGroup.Wait()` returns a non-nil error: some member task
returned one. -/
def groupHasError (od : Option Nat) (ms : List Member) : Bool :=
  ms.any (memberErr (sharedCancelAt od ms))

/-- Classification of a ParallelProber invocation's outcome, mirroring
the distinct error messages of src/testing.go. -/
inductive PPResult
  | ok
  | memberFailed
  | timedOut
deriving DecidableEq

/-- Result of the final select of ParallelProber: the outer deadline
firing before (or while) `errChan` delivers yields the timed-out failure;
otherwise the group's aggregate is returned, a member error wrapped as
the member-failed error. -/
def ppResult (od : Option Nat) (ms : List Member) : PPResult :=
  match od with
  | some d =>
    if d ≤ waitReturnsAt od ms then PPResult.timedOut
    else if groupHasError od ms then PPResult.memberFailed
    else PPResult.ok
  | none => if groupHasError od ms then PPResult.memberFailed else PPResult.ok

/-- Instant at which the ParallelProber call returns: when `errChan`
delivers (after every member task has returned), or at the outer deadline
if that fires first. -/
def ppReturnTime (od : Option Nat) (ms : List Member) : Nat :=
  match od with
  | some d => min d (waitReturnsAt od ms)
  | none => waitReturnsAt od ms

/-- The launch loop of ParallelProber: `errGroup.Go` is called exactly
once per member, and each task invokes its probe exactly once; the list
records, per member index, how many invocations that member receives. -/
def ppLaunches (ms : List Member) : List Nat :=
  ms.map (fun _ => 1)

/-! ## Helper lemmas about the phase loops -/

/-- Forward-order list of Close calls over a list as given (the close
phase applies this to the reversed registration list). -/
def closeEvents (l : List NamedComponent) : List Event :=
  l.filterMap (fun nc => nc.component.close.map (fun _ => Event.close nc.name))

theorem reverseCloses_eq_closeEvents (cs : List NamedComponent) :
    reverseCloses cs = closeEvents cs.reverse := rfl

theorem le_foldr_max (l : List Nat) : ∀ x ∈ l, x ≤ l.foldr max 0 := by
  induction l with
  | nil => intro x hx; cases hx
  | cons y ys ih =>
    intro x hx
    rcases List.mem_cons.mp hx with h | h
    · rw [List.foldr_cons, h]
      exact Nat.le_max_left _ _
    · exact le_trans (ih x h) (Nat.le_max_right _ _)

theorem failTimes_eq_nil (ms : List Member) (h : ∀ m ∈ ms, m.ok = true) :
    failTimes ms = [] := by
  induction ms with
  | nil => rfl
  | cons m rest ih =>
    have hm := h m (List.mem_cons_self m rest)
    have hr := ih (fun x hx => h x (List.mem_cons_of_mem m hx))
    simp [failTimes, List.filterMap_cons, hm]
    simpa [failTimes] using hr

theorem earliest_eq_none_iff (l : List Nat) : earliest l = none ↔ l = [] := by
  cases l with
  | nil => simp [earliest]
  | cons t ts => cases h : earliest ts <;> simp [earliest, h]

theorem applyWrites_full (w : Nat) (ws : List Nat) :
    applyWrites ⟨some w⟩ ws = (⟨some w⟩, ws.length) := by
  induction ws with
  | nil => rfl
  | cons x xs ih => simp [applyWrites, chanSend, ih]

theorem setupComponents_events_extends (st : Nat) (cs : List NamedComponent) :
    ∃ t, (setupComponents st cs).1 ++ t = forwardSetups cs := by
  induction cs with
  | nil => exact ⟨[], rfl⟩
  | cons nc rest ih =>
    cases hs : nc.component.setup with
    | none => simpa [setupComponents, forwardSetups, hs] using ih
    | some op =>
      cases hf : funcOrTimeout op st with
      | ok =>
        obtain ⟨t, ht⟩ := ih
        exact ⟨t, by simp [setupComponents, forwardSetups, hs, hf, ht]⟩
      | failed n =>
        exact ⟨forwardSetups rest, by simp [setupComponents, forwardSetups, hs, hf]⟩
      | timedOut =>
        exact ⟨forwardSetups rest, by simp [setupComponents, forwardSetups, hs, hf]⟩

theorem setupComponents_events_of_ok (st : Nat) (cs : List NamedComponent)
    (h : (setupComponents st cs).2 = FuncResult.ok) :
    (setupComponents st cs).1 = forwardSetups cs := by
  induction cs with
  | nil => rfl
  | cons nc rest ih =>
    cases hs : nc.component.setup with
    | none =>
      simp only [setupComponents, hs] at h ⊢
      simpa [forwardSetups, hs] using ih h
    | some op =>
      cases hf : funcOrTimeout op st with
      | ok =>
        simp only [setupComponents, hs, hf] at h ⊢
        simpa [forwardSetups, hs] using ih h
      | failed n => simp [setupComponents, hs, hf] at h
      | timedOut => simp [setupComponents, hs, hf] at h

theorem closeLoop_events_extends (ct : Nat) (l : List NamedComponent) :
    ∃ t, (closeLoop ct l).1 ++ t = closeEvents l := by
  induction l with
  | nil => exact ⟨[], rfl⟩
  | cons nc rest ih =>
    cases hs : nc.component.close with
    | none => simpa [closeLoop, closeEvents, hs] using ih
    | some op =>
      cases hf : funcOrTimeout op ct with
      | ok =>
        obtain ⟨t, ht⟩ := ih
        exact ⟨t, by simp [closeLoop, closeEvents, hs, hf, ht]⟩
      | failed n =>
        exact ⟨closeEvents rest, by simp [closeLoop, closeEvents, hs, hf]⟩
      | timedOut =>
        exact ⟨closeEvents rest, by simp [closeLoop, closeEvents, hs, hf]⟩

theorem closeLoop_events_of_ok (ct : Nat) (l : List NamedComponent)
    (h : (closeLoop ct l).2 = FuncResult.ok) :
    (closeLoop ct l).1 = closeEvents l := by
  induction l with
  | nil => rfl
  | cons nc rest ih =>
    cases hs : nc.component.close with
    | none =>
      simp only [closeLoop, hs] at h ⊢
      simpa [closeEvents, hs] using ih h
    | some op =>
      cases hf : funcOrTimeout op ct with
      | ok =>
        simp only [closeLoop, hs, hf] at h ⊢
        simpa [closeEvents, hs] using ih h
      | failed n => simp [closeLoop, hs, hf] at h
      | timedOut => simp [closeLoop, hs, hf] at h

theorem setupComponents_append (st : Nat) (l₁ l₂ : List NamedComponent) :
    setupComponents st (l₁ ++ l₂) =
      if (setupComponents st l₁).2 = FuncResult.ok
      then ((setupComponents st l₁).1 ++ (setupComponents st l₂).1, (setupComponents st l₂).2)
      else setupComponents st l₁ := by
  induction l₁ with
  | nil => simp [setupComponents]
  | cons nc rest ih =>
    cases hs : nc.component.setup with
    | none => simpa [setupComponents, hs] using ih
    | some op =>
      cases hf : funcOrTimeout op st with
      | ok =>
        by_cases hr : (setupComponents st rest).2 = FuncResult.ok <;>
          simp [setupComponents, hs, hf, ih, hr]
      | failed n => simp [setupComponents, hs, hf]
      | timedOut => simp [setupComponents, hs, hf]

theorem closeLoop_append (ct : Nat) (l₁ l₂ : List NamedComponent) :
    closeLoop ct (l₁ ++ l₂) =
      if (closeLoop ct l₁).2 = FuncResult.ok
      then ((closeLoop ct l₁).1 ++ (closeLoop ct l₂).1, (closeLoop ct l₂).2)
      else closeLoop ct l₁ := by
  induction l₁ with
  | nil => simp [closeLoop]
  | cons nc rest ih =>
    cases hs : nc.component.close with
    | none => simpa [closeLoop, hs] using ih
    | some op =>
      cases hf : funcOrTimeout op ct with
      | ok =>
        by_cases hr : (closeLoop ct rest).2 = FuncResult.ok <;>
          simp [closeLoop, hs, hf, ih, hr]
      | failed n => simp [closeLoop, hs, hf]
      | timedOut => simp [closeLoop, hs, hf]

/-! ## Claim theorems -/

/-- C1: for every registration list, Run's setup phase visits components
in forward registration order calling Setup only on components exposing
it (the trace of the setup loop extends to the full forward-order list,
and reaches all of it when the loop succeeds), no Start call is issued
before every setup has completed (the run trace is the setup trace,
followed by the start launches only when setup fully succeeded, followed
by the close trace), and the close phase visits components in exactly
reverse registration order calling Close only on components exposing it. -/
theorem run_phase_order (st ct w : Nat) (cs : List NamedComponent) :
    (∃ t, (setupComponents st cs).1 ++ t = forwardSetups cs)
  ∧ ((setupComponents st cs).2 = FuncResult.ok →
      (setupComponents st cs).1 = forwardSetups cs)
  ∧ (∃ t, (closeComponents ct cs).1 ++ t = reverseCloses cs)
  ∧ ((closeComponents ct cs).2 = FuncResult.ok →
      (closeComponents ct cs).1 = reverseCloses cs)
  ∧ ((setupComponents st cs).2 = FuncResult.ok →
      (run st ct w cs).1 = forwardSetups cs ++ startComponents cs ++ (closeComponents ct cs).1)
  ∧ ((setupComponents st cs).2 ≠ FuncResult.ok →
      (run st ct w cs).1 = (setupComponents st cs).1) := by
  refine ⟨setupComponents_events_extends st cs, setupComponents_events_of_ok st cs,
    ?_, ?_, ?_, ?_⟩
  · simpa [closeComponents, reverseCloses_eq_closeEvents] using
      closeLoop_events_extends ct cs.reverse
  · intro h
    simpa [closeComponents, reverseCloses_eq_closeEvents] using
      closeLoop_events_of_ok ct cs.reverse h
  · intro h
    have hs := setupComponents_events_of_ok st cs h
    cases hc : (closeComponents ct cs).2 <;> simp [run, h, hs, hc]
  · intro h
    cases hs2 : (setupComponents st cs).2 with
    | ok => exact absurd hs2 h
    | failed n => simp [run, hs2]
    | timedOut => simp [run, hs2]

/-- Witness for run_phase_order: a concrete two-component list whose
setup succeeds; the run trace is setup of "a", then both starts, then the
closes in reverse order. -/
theorem run_phase_order_witness :
    (setupComponents 5 [⟨"a", ⟨some ⟨1, none⟩, StartBehavior.ok, some ⟨1, none⟩⟩⟩,
        ⟨"b", ⟨none, StartBehavior.ok, some ⟨1, none⟩⟩⟩]).2 = FuncResult.ok ∧
    (run 5 5 0 [⟨"a", ⟨some ⟨1, none⟩, StartBehavior.ok, some ⟨1, none⟩⟩⟩,
        ⟨"b", ⟨none, StartBehavior.ok, some ⟨1, none⟩⟩⟩]).1 =
      forwardSetups [⟨"a", ⟨some ⟨1, none⟩, StartBehavior.ok, some ⟨1, none⟩⟩⟩,
          ⟨"b", ⟨none, StartBehavior.ok, some ⟨1, none⟩⟩⟩] ++
        startComponents [⟨"a", ⟨some ⟨1, none⟩, StartBehavior.ok, some ⟨1, none⟩⟩⟩,
          ⟨"b", ⟨none, StartBehavior.ok, some ⟨1, none⟩⟩⟩] ++
        (closeComponents 5 [⟨"a", ⟨some ⟨1, none⟩, StartBehavior.ok, some ⟨1, none⟩⟩⟩,
          ⟨"b", ⟨none, StartBehavior.ok, some ⟨1, none⟩⟩⟩]).1 :=
  ⟨by decide,
    (run_phase_order 5 5 0 [⟨"a", ⟨some ⟨1, none⟩, StartBehavior.ok, some ⟨1, none⟩⟩⟩,
        ⟨"b", ⟨none, StartBehavior.ok, some ⟨1, none⟩⟩⟩]).2.2.2.2.1 (by decide)⟩

/-- C2: if the first failing setup (all earlier setups succeeded) times
out, Run's whole trace is the earlier setups plus that one Setup call —
no later setup, no start launch, no close call — and Run returns SIGALRM;
if it returns an error instead, the trace is the same and Run returns
SIGABRT. -/
theorem setup_abort_skips_rest (st ct w : Nat) (pre post : List NamedComponent)
    (nc : NamedComponent) (op : Op)
    (h1 : nc.component.setup = some op)
    (h2 : (setupComponents st pre).2 = FuncResult.ok) :
    (funcOrTimeout op st = FuncResult.timedOut →
      run st ct w (pre ++ nc :: post) =
        ((setupComponents st pre).1 ++ [Event.setup nc.name], SIGALRM))
  ∧ (∀ n, funcOrTimeout op st = FuncResult.failed n →
      run st ct w (pre ++ nc :: post) =
        ((setupComponents st pre).1 ++ [Event.setup nc.name], SIGABRT)) := by
  have happ := setupComponents_append st pre (nc :: post)
  simp only [h2, if_true, reduceIte] at happ
  constructor
  · intro hf
    simp [run, happ, setupComponents, h1, hf]
  · intro n hf
    simp [run, happ, setupComponents, h1, hf]

/-- Witness for setup_abort_skips_rest: a component whose setup takes 9
units against a 5-unit timeout, followed by one more registered
component; Run stops after that single Setup call and returns SIGALRM. -/
theorem setup_abort_skips_rest_witness :
    (⟨some ⟨9, none⟩, StartBehavior.ok, none⟩ : Component).setup = some ⟨9, none⟩ ∧
    (setupComponents 5 ([] : List NamedComponent)).2 = FuncResult.ok ∧
    run 5 5 0 ([] ++ ⟨"b", ⟨some ⟨9, none⟩, StartBehavior.ok, none⟩⟩ ::
        [⟨"z", ⟨none, StartBehavior.ok, none⟩⟩]) =
      ((setupComponents 5 ([] : List NamedComponent)).1 ++ [Event.setup "b"], SIGALRM) :=
  ⟨rfl, rfl,
    (setup_abort_skips_rest 5 5 0 [] [⟨"z", ⟨none, StartBehavior.ok, none⟩⟩]
      ⟨"b", ⟨some ⟨9, none⟩, StartBehavior.ok, none⟩⟩ ⟨9, none⟩ rfl rfl).1 (by decide)⟩

/-- C3: in a run that reaches the close phase (setup succeeded), a close
timeout makes Run return SIGALRM and a close error makes it return
SIGABRT — replacing the wait-phase cause `w` — while if every close
succeeds Run returns `w` unchanged; moreover a close failure aborts the
remaining closes: the close trace stops right after the failing Close
call. -/
theorem close_overrides_wait (st ct w : Nat) (cs : List NamedComponent)
    (h : (setupComponents st cs).2 = FuncResult.ok) :
    ((closeComponents ct cs).2 = FuncResult.timedOut → (run st ct w cs).2 = SIGALRM)
  ∧ (∀ n, (closeComponents ct cs).2 = FuncResult.failed n → (run st ct w cs).2 = SIGABRT)
  ∧ ((closeComponents ct cs).2 = FuncResult.ok → (run st ct w cs).2 = w)
  ∧ (∀ pre nc post op, cs.reverse = pre ++ nc :: post →
      nc.component.close = some op →
      (closeLoop ct pre).2 = FuncResult.ok →
      funcOrTimeout op ct ≠ FuncResult.ok →
      (closeComponents ct cs).1 = (closeLoop ct pre).1 ++ [Event.close nc.name]) := by
  refine ⟨?_, ?_, ?_, ?_⟩
  · intro hc; simp [run, h, hc]
  · intro n hc; simp [run, h, hc]
  · intro hc; simp [run, h, hc]
  · intro pre nc post op hrev hcl hpre hf
    have happ := closeLoop_append ct pre (nc :: post)
    simp only [hpre, if_true, reduceIte] at happ
    cases hfc : funcOrTimeout op ct with
    | ok => exact absurd hfc hf
    | failed n => simp [closeComponents, hrev, happ, closeLoop, hcl, hfc]
    | timedOut => simp [closeComponents, hrev, happ, closeLoop, hcl, hfc]

/-- Witness for close_overrides_wait: one component whose close takes 9
units against a 5-unit timeout; the wait-phase cause 2 is replaced by
SIGALRM. -/
theorem close_overrides_wait_witness :
    (setupComponents 5 [⟨"a", ⟨none, StartBehavior.ok, some ⟨9, none⟩⟩⟩]).2 = FuncResult.ok ∧
    (closeComponents 5 [⟨"a", ⟨none, StartBehavior.ok, some ⟨9, none⟩⟩⟩]).2 =
      FuncResult.timedOut ∧
    (run 5 5 2 [⟨"a", ⟨none, StartBehavior.ok, some ⟨9, none⟩⟩⟩]).2 = SIGALRM :=
  ⟨by decide, by decide,
    (close_overrides_wait 5 5 2 [⟨"a", ⟨none, StartBehavior.ok, some ⟨9, none⟩⟩⟩]
      (by decide)).1 (by decide)⟩

/-- C4: when the operation completes before the timer fires, funcOrTimeout
returns the operation's own result verbatim; when the timer fires first it
returns the distinct timeout sentinel, which no operation result equals;
and the background task always runs the operation to completion and
performs its single channel send — there is no cancellation of the raced
operation. -/
theorem funcOrTimeout_race (f : Op) (t : Nat) :
    (f.dur < t → funcOrTimeout f t = toFuncResult f.result)
  ∧ (t < f.dur → funcOrTimeout f t = FuncResult.timedOut)
  ∧ (∀ r, toFuncResult r ≠ FuncResult.timedOut)
  ∧ bgSend f = SendOutcome.completed ⟨some f.result⟩ := by
  refine ⟨?_, ?_, ?_, rfl⟩
  · intro h; simp [funcOrTimeout, h]
  · intro h; simp [funcOrTimeout, Nat.lt_asymm h]
  · intro r; cases r <;> simp [toFuncResult]

/-- Witness for funcOrTimeout_race: an operation of duration 2 and error 5
against timeout 9 yields the error verbatim; an operation of duration 9
against timeout 3 yields the timeout sentinel. -/
theorem funcOrTimeout_race_witness :
    ((⟨2, some 5⟩ : Op).dur < 9 ∧ funcOrTimeout ⟨2, some 5⟩ 9 = toFuncResult (some 5)) ∧
    (3 < (⟨9, none⟩ : Op).dur ∧ funcOrTimeout ⟨9, none⟩ 3 = FuncResult.timedOut) :=
  ⟨⟨by decide, (funcOrTimeout_race ⟨2, some 5⟩ 9).1 (by decide)⟩,
   ⟨by decide, (funcOrTimeout_race ⟨9, none⟩ 3).2.1 (by decide)⟩⟩

/-- C5 counterexample: the producers' writes on the exit channel are plain
sends, so when a cause has already been recorded (the slot is full) a
later writer blocks instead of being silently dropped; the non-blocking
offer the claim describes would instead drop the value and let the writer
proceed. -/
theorem exit_write_blocks_counterexample :
    exitSignalWrite ⟨some SIGABRT⟩ SIGABRT = SendOutcome.blocked ∧
    chanOffer ⟨some SIGABRT⟩ SIGABRT = (⟨some SIGABRT⟩, false) :=
  ⟨rfl, rfl⟩

/-- C5 amended: writes to the capacity-one exit channel are plain sends:
a writer that finds the slot free completes without blocking, the single
receive of waitForSignal consumes the first completed write (so at most
one value is consumed per Run and the first cause wins), but a writer
arriving while the slot is still full blocks until the slot is drained
rather than being silently dropped. -/
theorem exit_write_first_wins (v w : Nat) (ws : List Nat) :
    exitSignalWrite exitChanInit v = SendOutcome.completed ⟨some v⟩
  ∧ firstConsumed ws = ws.head?
  ∧ exitSignalWrite ⟨some w⟩ v = SendOutcome.blocked := by
  refine ⟨rfl, ?_, rfl⟩
  cases ws with
  | nil => rfl
  | cons x xs =>
    simp [firstConsumed, applyWrites, exitChanInit, chanSend, applyWrites_full]

/-- C6: the start-phase goroutine wrapper never lets a panic crash the
process: the wrapped task always returns, a panicking Start is converted
by the deferred recover into a SIGABRT write to the arbitration channel,
whereas the same body without the recover would crash. -/
theorem start_panic_contained :
    (∀ b, startTask b ≠ TaskOutcome.crashed)
  ∧ startTask StartBehavior.panics = TaskOutcome.returned (some SIGABRT)
  ∧ rawStartTask StartBehavior.panics = TaskOutcome.crashed := by
  refine ⟨?_, rfl, rfl⟩
  intro b; cases b <;> simp [startTask]

/-- C7 counterexample: a value implementing none of the three lifecycle
methods does not satisfy the `Component` interface (which demands Start),
so it is not a legal registrable Component. -/
theorem component_needs_start_counterexample :
    implementsComponent ⟨false, false, false⟩ = false := rfl

/-- C7 amended: a value is a legal registrable Component exactly when it
exposes Start; Setup and Close may be present in any combination; the
setup and close phases skip a component lacking the respective
capability, while the start phase launches every registered component. -/
theorem component_capabilities_amended :
    (∀ ms : MethodSet, implementsComponent ms = ms.hasStart)
  ∧ (∀ ms : MethodSet, implementsSetupable ms = ms.hasSetup)
  ∧ (∀ ms : MethodSet, implementsClosable ms = ms.hasClose)
  ∧ (∀ st (nc : NamedComponent), nc.component.setup = none →
      setupComponents st [nc] = ([], FuncResult.ok))
  ∧ (∀ ct (nc : NamedComponent), nc.component.close = none →
      closeComponents ct [nc] = ([], FuncResult.ok))
  ∧ (∀ nc : NamedComponent, startComponents [nc] = [Event.start nc.name]) := by
  refine ⟨fun _ => rfl, fun _ => rfl, fun _ => rfl, ?_, ?_, fun _ => rfl⟩
  · intro st nc h; simp [setupComponents, h]
  · intro ct nc h; simp [closeComponents, closeLoop, h]

/-- Witness for component_capabilities_amended: a component exposing only
Start is skipped by the setup and close phases but launched by the start
phase. -/
theorem component_capabilities_amended_witness :
    ((⟨none, StartBehavior.ok, none⟩ : Component).setup = none ∧
      setupComponents 5 [⟨"n", ⟨none, StartBehavior.ok, none⟩⟩] = ([], FuncResult.ok)) ∧
    ((⟨none, StartBehavior.ok, none⟩ : Component).close = none ∧
      closeComponents 5 [⟨"n", ⟨none, StartBehavior.ok, none⟩⟩] = ([], FuncResult.ok)) ∧
    startComponents [⟨"n", ⟨none, StartBehavior.ok, none⟩⟩] = [Event.start "n"] :=
  ⟨⟨rfl, component_capabilities_amended.2.2.2.1 5 ⟨"n", ⟨none, StartBehavior.ok, none⟩⟩ rfl⟩,
   ⟨rfl, component_capabilities_amended.2.2.2.2.1 5 ⟨"n", ⟨none, StartBehavior.ok, none⟩⟩ rfl⟩,
   component_capabilities_amended.2.2.2.2.2 ⟨"n", ⟨none, StartBehavior.ok, none⟩⟩⟩

/-- C8: a RetryingProber with retry delay 100 and overall deadline 1050
applied to a probe that never succeeds invokes the probe exactly 10 times
and returns the deadline-exceeded failure; cancelling the caller's
context instead (here at instant 525) yields the distinct plain
cancellation failure. -/
theorem retrying_prober_ten_attempts :
    retryingProber 100 1050 none (fun _ => false) = (ProbeResult.deadlineExceeded, 10)
  ∧ retryingProber 100 1050 (some 525) (fun _ => false) = (ProbeResult.cancelled, 5)
  ∧ ProbeResult.deadlineExceeded ≠ ProbeResult.cancelled :=
  ⟨by decide, by decide, by decide⟩

/-- C10: the errs channel of funcOrTimeout has buffer capacity one, so
the background task's single send completes even when the timeout won and
nobody ever receives the result: the sender never blocks, the late result
is simply left in the buffer and discarded. -/
theorem funcOrTimeout_send_completes (f : Op) :
    bgSend f = SendOutcome.completed ⟨some f.result⟩ ∧
    bgSend f ≠ SendOutcome.blocked :=
  ⟨rfl, by simp [bgSend, chanSend, errsChanInit]⟩

/-- C9 counterexample: with member 0 failing at instant 1 and member 1 a
success that ignores cancellation and runs until instant 100, the call
returns the member-failed error only at instant 100 — the finish time of
the remaining member — and not at instant 1 when the failure was
observed: ParallelProber waits, through errgroup Wait, for the remaining
members to finish before returning. -/
theorem parallel_prober_waits_counterexample :
    firstFailAt [⟨1, false, true⟩, ⟨100, true, false⟩] = some 1 ∧
    memberFinish (some 1) ⟨100, true, false⟩ = 100 ∧
    ppReturnTime none [⟨1, false, true⟩, ⟨100, true, false⟩] = 100 ∧
    ppResult none [⟨1, false, true⟩, ⟨100, true, false⟩] = PPResult.memberFailed :=
  ⟨by decide, by decide, by decide, by decide⟩

/-- C9 amended: with no outer deadline, ParallelProber succeeds exactly
when all member probes succeed, each member being launched and invoked
exactly once; when some member fails, the shared context is cancelled at
the first failure and the member-failed error is returned, but only after
every member's task has returned — the return instant is at or past each
member's finish time (cancellation merely prompts responsive members to
return early). -/
theorem parallel_prober_amended (ms : List Member) :
    ((∀ m ∈ ms, m.ok = true) → ppResult none ms = PPResult.ok)
  ∧ ((∃ m ∈ ms, m.ok = false) →
      ppResult none ms = PPResult.memberFailed
      ∧ sharedCancelAt none ms = firstFailAt ms
      ∧ ∀ m ∈ ms, memberFinish (sharedCancelAt none ms) m ≤ ppReturnTime none ms)
  ∧ ((ppLaunches ms).length = ms.length ∧ ∀ k ∈ ppLaunches ms, k = 1) := by
  refine ⟨?_, ?_, ?_⟩
  · intro h
    have hft : firstFailAt ms = none := by
      simp [firstFailAt, failTimes_eq_nil ms h, earliest]
    have htc : sharedCancelAt none ms = none := by simp [sharedCancelAt, hft]
    have hge : groupHasError none ms = false := by
      rw [groupHasError, htc]
      simp only [List.any_eq_false]
      intro m hm
      simp [memberErr, h m hm]
    simp [ppResult, hge]
  · intro h
    obtain ⟨m, hm, hok⟩ := h
    have hmem : m.dur ∈ failTimes ms := by
      simp [failTimes, List.mem_filterMap]
      exact ⟨m, hm, by simp [hok]⟩
    have hne : failTimes ms ≠ [] := by
      intro hnil; rw [hnil] at hmem; cases hmem
    have hft : ∃ t, firstFailAt ms = some t := by
      cases hf : firstFailAt ms with
      | none => exact absurd ((earliest_eq_none_iff (failTimes ms)).mp hf) hne
      | some t => exact ⟨t, rfl⟩
    obtain ⟨t, hft⟩ := hft
    have htc : sharedCancelAt none ms = some t := by simp [sharedCancelAt, hft]
    have hge : groupHasError none ms = true := by
      rw [groupHasError, htc]
      simp only [List.any_eq_true]
      refine ⟨m, hm, ?_⟩
      cases hc : m.cancelResponsive && decide (t < m.dur) <;> simp [memberErr, hc, hok]
    refine ⟨by simp [ppResult, hge], by rw [htc, hft], ?_⟩
    intro x hx
    have : memberFinish (sharedCancelAt none ms) x ∈
        ms.map (memberFinish (sharedCancelAt none ms)) :=
      List.mem_map_of_mem _ hx
    simpa [ppReturnTime, waitReturnsAt] using
      le_foldr_max (ms.map (memberFinish (sharedCancelAt none ms))) _ this
  · constructor
    · simp [ppLaunches]
    · intro k hk
      simp [ppLaunches] at hk
      exact hk.2

/-- Witness for parallel_prober_amended: with two members that both
succeed the result is success; with a single failing member the result is
the member-failed error. -/
theorem parallel_prober_amended_witness :
    ((∀ m ∈ ([⟨1, true, true⟩, ⟨2, true, false⟩] : List Member), m.ok = true) ∧
      ppResult none [⟨1, true, true⟩, ⟨2, true, false⟩] = PPResult.ok) ∧
    ((∃ m ∈ ([⟨3, false, true⟩] : List Member), m.ok = false) ∧
      ppResult none [⟨3, false, true⟩] = PPResult.memberFailed) :=
  ⟨⟨by decide, (parallel_prober_amended [⟨1, true, true⟩, ⟨2, true, false⟩]).1 (by decide)⟩,
   ⟨by decide, ((parallel_prober_amended [⟨3, false, true⟩]).2.1 (by decide)).1⟩⟩

end Unixcycle
